import Mathlib

/-!
Verification development for the GitLab metrics analyzer repository.

The repository contains three Python scripts:
- gitlab_devflow_metrics.py       (DevFlow collector: merge-request metrics)
- gitlab_ci_health_metrics.py     (sequential CI collector: pipeline metrics)
- ___old/gitlab_ci_health_metrics.py (concurrent CI collector)

Below, each Python function that the claims touch is embedded as a Lean
definition.  Timestamps are modelled as integers (seconds); Python floats are
modelled as rationals; Python None is modelled by Option; a raised exception
that a caller catches is modelled by Except Unit.
-/

/-- Python round-half-to-even of a rational to an integer, the semantics of
the builtin one-argument round. -/
def pyRound (x : ℚ) : ℤ :=
  let f : ℤ := ⌊x⌋
  let r : ℚ := x - (f : ℚ)
  if r < 1/2 then f
  else if 1/2 < r then f + 1
  else if f % 2 = 0 then f else f + 1

/-- Python round(x, 3): round half to even at 3 decimal places. -/
def round3 (x : ℚ) : ℚ := (pyRound (x * 1000) : ℚ) / 1000

/-- Python round(x, 4): round half to even at 4 decimal places, used by the
CI success-rate helper. -/
def round4 (x : ℚ) : ℚ := (pyRound (x * 10000) : ℚ) / 10000

/-- to_hours from gitlab_devflow_metrics.py: a timedelta (here: a signed
number of seconds) converted to hours rounded to 3 decimals. -/
def to_hours (deltaSeconds : ℤ) : ℚ := round3 ((deltaSeconds : ℚ) / 3600)

/-- to_seconds from gitlab_ci_health_metrics.py: a timedelta in seconds,
rounded to 3 decimals. -/
def to_seconds (deltaSeconds : ℤ) : ℚ := round3 ((deltaSeconds : ℚ))

/-- quantiles from both collectors: inclusive nearest-rank quantile.
Sorts ascending, picks index max(0, min(n-1, round((n-1)*q))), rounds the
selected value to 3 decimals; None on empty input. -/
def quantiles (values : List ℚ) (q : ℚ) : Option ℚ :=
  if values = [] then none
  else
    let vals := values.insertionSort (· ≤ ·)
    let idx : ℤ := max 0 (min ((vals.length : ℤ) - 1) (pyRound (((vals.length : ℤ) - 1 : ℚ) * q)))
    some (round3 (vals.getD idx.toNat 0))

/-- avg: the arithmetic mean rounded to 3 decimals, None on empty input.
Identical in gitlab_ci_health_metrics.py (module level), in the ___old
variant, and as the local avg inside collect_for_project of
gitlab_devflow_metrics.py. -/
def avg (nums : List ℚ) : Option ℚ :=
  if nums = [] then none else some (round3 (nums.sum / (nums.length : ℚ)))

example : quantiles [3, 1, 2] 0 = some 1 := by
  norm_num [quantiles, List.insertionSort, List.orderedInsert, round3, pyRound]
  intro h
  simp at h

example : avg [1, 2] = some (3/2) := by
  norm_num [avg, round3, pyRound]
  intro h
  simp at h

/-!  DevFlow correlation heuristics (gitlab_devflow_metrics.py).  -/

/-- A merge-request note as the heuristics consume it: the system flag, the
body text, the author username when present (None models a missing author
dict or username), and the already-parsed created_at timestamp. -/
structure Note where
  system : Bool
  body : String
  author : Option String
  created_at : ℤ
deriving DecidableEq, Repr

/-- A merge-request commit: only its created_at timestamp is consumed. -/
structure Commit where
  created_at : ℤ
deriving DecidableEq, Repr

/-- READY_PATTERNS from gitlab_devflow_metrics.py. -/
def READY_PATTERNS : List String :=
  ["marked this merge request as ready",
   "marked this merge request as ready to merge"]

/-- DRAFT_PATTERNS from gitlab_devflow_metrics.py. -/
def DRAFT_PATTERNS : List String :=
  ["marked this merge request as draft",
   "marked this merge request as work in progress"]

/-- Python substring containment p in b, as infix of the character list. -/
def strContains (b p : String) : Bool := decide (p.toList <:+: b.toList)

/-- Python str.lower, modelled per character over the string data. -/
def strToLower (s : String) : String := ⟨s.data.map Char.toLower⟩

/-- find_ready_time: fold over the notes; a system note whose lowercased
body contains a ready pattern moves the ready time to that note, a draft
pattern match is a pass (no-op), exactly as in the source. -/
def readyStep (ready_time : ℤ) (n : Note) : ℤ :=
  if !n.system then ready_time
  else
    let b := strToLower n.body
    if READY_PATTERNS.any (fun p => strContains b p) then n.created_at
    else if DRAFT_PATTERNS.any (fun p => strContains b p) then ready_time
    else ready_time

def find_ready_time (created_at : ℤ) (notes : List Note) : ℤ :=
  notes.foldl readyStep created_at

/-- compute_ttfr: the first non-system note whose author is present,
non-empty and different from the MR author, with timestamp at or after
created_at, gives hours from creation; otherwise None.  A qualifying note
earlier than created_at does not return: the loop continues. -/
def compute_ttfr (created_at : ℤ) (mr_author : String) : List Note → Option ℚ
  | [] => none
  | n :: rest =>
    if n.system then compute_ttfr created_at mr_author rest
    else
      match n.author with
      | some a =>
        if a ≠ "" ∧ a ≠ mr_author then
          if created_at ≤ n.created_at then some (to_hours (n.created_at - created_at))
          else compute_ttfr created_at mr_author rest
        else compute_ttfr created_at mr_author rest
      | none => compute_ttfr created_at mr_author rest

/-- Event kinds of the review-rounds event stream. -/
inductive EventKind where
  | review
  | commit
deriving DecidableEq, Repr

/-- The filter deciding which notes count as review events: non-system,
author present, non-empty and different from the MR author. -/
def isReviewerNote (mr_author : String) (n : Note) : Bool :=
  !n.system &&
    (match n.author with
     | some a => decide (a ≠ "") && decide (a ≠ mr_author)
     | none => false)

/-- The merged event stream of compute_review_rounds: reviewer notes inside
the window, then commits inside the window, stably sorted by timestamp
(Python list.sort is stable, as is insertion sort). -/
def mergedEvents (mr_author : String) (notes : List Note) (commits : List Commit)
    (start_time merged_at : ℤ) : List (ℤ × EventKind) :=
  let revs := (notes.filter
      (fun n => isReviewerNote mr_author n &&
        (decide (start_time ≤ n.created_at) && decide (n.created_at ≤ merged_at)))).map
      (fun n => (n.created_at, EventKind.review))
  let cs := (commits.filter
      (fun c => decide (start_time ≤ c.created_at) && decide (c.created_at ≤ merged_at))).map
      (fun c => (c.created_at, EventKind.commit))
  (revs ++ cs).insertionSort (fun a b => a.1 ≤ b.1)

/-- One transition of the review-rounds machine: state is
(rounds, awaiting_commit). -/
def roundStep (st : ℕ × Bool) (e : ℤ × EventKind) : ℕ × Bool :=
  match e.2 with
  | EventKind.review => (st.1, true)
  | EventKind.commit => if st.2 then (st.1 + 1, false) else st

/-- compute_review_rounds: fold the two-state machine over the merged event
stream, starting at zero rounds, not awaiting a commit. -/
def compute_review_rounds (mr_author : String) (notes : List Note) (commits : List Commit)
    (start_time merged_at : ℤ) : ℕ :=
  ((mergedEvents mr_author notes commits start_time merged_at).foldl
    roundStep ((0 : ℕ), false)).1

/-- The review-round two-state machine stated directly on a list of event
kinds, following the specification text: a review sets the awaiting flag, a
commit while awaiting counts a round and clears the flag. -/
def countRoundsGo : Bool → List EventKind → ℕ
  | _, [] => 0
  | _, EventKind.review :: rest => countRoundsGo true rest
  | awaiting, EventKind.commit :: rest =>
    if awaiting then countRoundsGo false rest + 1 else countRoundsGo awaiting rest

/-- Round count of an event-kind stream, starting not awaiting a commit. -/
def countRounds (ks : List EventKind) : ℕ := countRoundsGo false ks

/-!  DevFlow per-project collector (gitlab_devflow_metrics.py).  -/

/-- size_bucket: files-changed count to bucket name, None to unknown. -/
def size_bucket : Option ℤ → String
  | none => "unknown"
  | some files_changed =>
    if files_changed ≤ 3 then "xs"
    else if files_changed ≤ 10 then "s"
    else if files_changed ≤ 25 then "m"
    else if files_changed ≤ 50 then "l"
    else "xl"

/-- The size_counts dictionary, which holds exactly the keys xs, s, m, l,
xl at construction. -/
structure SizeCounts where
  xs : ℕ
  s : ℕ
  m : ℕ
  l : ℕ
  xl : ℕ
deriving DecidableEq, Repr

/-- Incrementing size_counts at a bucket key.  None models the KeyError a
lookup at any other key, such as unknown, would raise. -/
def incBucket (c : SizeCounts) : String → Option SizeCounts
  | "xs" => some { c with xs := c.xs + 1 }
  | "s" => some { c with s := c.s + 1 }
  | "m" => some { c with m := c.m + 1 }
  | "l" => some { c with l := c.l + 1 }
  | "xl" => some { c with xl := c.xl + 1 }
  | _ => none

/-- The MRFact dataclass. -/
structure MRFact where
  project_id : ℤ
  project_path : String
  mr_id : ℤ
  mr_iid : ℤ
  title : String
  author_username : String
  created_at : ℤ
  merged_at : ℤ
  start_time : ℤ
  time_to_merge_h : Option ℚ
  time_to_first_review_h : Option ℚ
  review_rounds : ℕ
  files_changed : Option ℤ
deriving DecidableEq, Repr

/-- The ProjectRollup dataclass. -/
structure ProjectRollup where
  project_id : ℤ
  project_path : String
  mrs_merged : ℕ
  mttm_mean_h : Option ℚ
  mttm_p50_h : Option ℚ
  mttm_p90_h : Option ℚ
  ttfr_mean_h : Option ℚ
  ttfr_p50_h : Option ℚ
  ttfr_p90_h : Option ℚ
  review_rounds_avg : Option ℚ
  size_xs : ℕ
  size_s : ℕ
  size_m : ℕ
  size_l : ℕ
  size_xl : ℕ
deriving DecidableEq, Repr

/-- The data the per-MR iteration of collect_for_project fetches for one
merged MR: the full MR record plus its notes, commits and changes.  The
changes list is represented by its file names; fields already parsed. -/
structure MRData where
  mr_id : ℤ
  iid : ℤ
  title : String
  author : Option String
  created_at : ℤ
  merged_at : Option ℤ
  notes : List Note
  commits : List Commit
  changes : List String
deriving DecidableEq, Repr

/-- The mutable accumulators of collect_for_project. -/
structure DFState where
  facts : List MRFact
  mttm_list : List ℚ
  ttfr_list : List ℚ
  review_rounds_list : List ℕ
  size_counts : SizeCounts
deriving DecidableEq, Repr

/-- One iteration of the merged-MR loop of collect_for_project.  An error
input models a fetch or parse failure anywhere before the state mutations:
it is caught, logged, and the state is unchanged.  An MR that is not merged
or merged before the cutoff is skipped.  Otherwise every accumulator is
appended to; the size_counts lookup is modelled through incBucket, whose
KeyError (caught by the same handler) would leave the counts unchanged
while the fact stays appended. -/
def df_step (pid : ℤ) (ppath : String) (since : ℤ) (st : DFState)
    (me : Except Unit MRData) : DFState :=
  match me with
  | Except.error _ => st
  | Except.ok d =>
    match d.merged_at with
    | none => st
    | some merged_at =>
      if merged_at < since then st
      else
        let files_changed : ℤ := d.changes.length
        let author_username :=
          match d.author with
          | some a => if a = "" then "unknown" else a
          | none => "unknown"
        let start_time := find_ready_time d.created_at d.notes
        let ttm_h : Option ℚ := some (to_hours (merged_at - start_time))
        let ttfr_h := compute_ttfr d.created_at author_username d.notes
        let rounds := compute_review_rounds author_username d.notes d.commits start_time merged_at
        let fact : MRFact :=
          { project_id := pid
            project_path := ppath
            mr_id := d.mr_id
            mr_iid := d.iid
            title := d.title
            author_username := author_username
            created_at := d.created_at
            merged_at := merged_at
            start_time := start_time
            time_to_merge_h := ttm_h
            time_to_first_review_h := ttfr_h
            review_rounds := rounds
            files_changed := some files_changed }
        let st1 : DFState :=
          { facts := st.facts ++ [fact]
            mttm_list := st.mttm_list ++ (match ttm_h with | some v => [v] | none => [])
            ttfr_list := st.ttfr_list ++ (match ttfr_h with | some v => [v] | none => [])
            review_rounds_list := st.review_rounds_list ++ [rounds]
            size_counts := st.size_counts }
        match incBucket st1.size_counts (size_bucket (some files_changed)) with
        | some c => { st1 with size_counts := c }
        | none => st1

/-- collect_for_project of gitlab_devflow_metrics.py, over the already
fetched list of merged-MR results (one Except per MR iteration). -/
def df_collect (pid : ℤ) (ppath : String) (mrs : List (Except Unit MRData))
    (since : ℤ) : List MRFact × ProjectRollup :=
  let stF := mrs.foldl (df_step pid ppath since) ⟨[], [], [], [], ⟨0, 0, 0, 0, 0⟩⟩
  (stF.facts,
    { project_id := pid
      project_path := ppath
      mrs_merged := stF.facts.length
      mttm_mean_h := avg stF.mttm_list
      mttm_p50_h := quantiles stF.mttm_list (50/100)
      mttm_p90_h := quantiles stF.mttm_list (90/100)
      ttfr_mean_h := avg stF.ttfr_list
      ttfr_p50_h := quantiles stF.ttfr_list (50/100)
      ttfr_p90_h := quantiles stF.ttfr_list (90/100)
      review_rounds_avg := avg (stF.review_rounds_list.map (fun r => (r : ℚ)))
      size_xs := stF.size_counts.xs
      size_s := stF.size_counts.s
      size_m := stF.size_counts.m
      size_l := stF.size_counts.l
      size_xl := stF.size_counts.xl })

/-!  DevFlow main loop (gitlab_devflow_metrics.py, main).  -/

/-- One discovered project as the DevFlow main sees it: identity plus the
outcome of the merged-MR list fetch.  An error in the outer component
models list_merge_requests raising inside collect_for_project, where no
handler exists. -/
structure ProjInput where
  pid : ℤ
  ppath : String
  mrs : Except Unit (List (Except Unit MRData))

/-- The project loop of the DevFlow main: sequential, with no handler
around collect_for_project, so a project whose MR-list fetch raises aborts
the whole run (Except.error).  A project with no facts is skipped;
otherwise its rollup is appended. -/
def df_main_rollups (since : ℤ) : List ProjInput → Except Unit (List ProjectRollup)
  | [] => Except.ok []
  | pr :: rest =>
    match pr.mrs with
    | Except.error e => Except.error e
    | Except.ok mrs =>
      let res := df_collect pr.pid pr.ppath mrs since
      match df_main_rollups since rest with
      | Except.error e => Except.error e
      | Except.ok rs =>
        Except.ok (if res.1.isEmpty then rs else res.2 :: rs)

/-- Row order of the DevFlow summary CSV (append_summary_csv): the rollups
are written in list order, unsorted. -/
def df_summary_order (rollups : List ProjectRollup) : List ProjectRollup := rollups

/-!  GitLab API client retry loop (GitLab._get).  The attempt loop, the
retry tuple and the sleeps are identical in all three files.  At retry
exhaustion the CI variants call raise_for_status on the last response; the
DevFlow variant instead raises a generic RequestException there, because a
response with a 4xx or 5xx status is falsy and skips its raise_for_status
guard.  Either way an exception carrying the failed request is raised,
modelled below by the httpError outcome of raise_for_status.  -/

/-- Outcome of one _get call: the response is returned, or
raise_for_status raises an HTTPError carrying the status. -/
inductive GetOutcome where
  | ok (status : ℕ)
  | httpError (status : ℕ)
deriving DecidableEq, Repr

/-- The retry condition of _get: status in (429, 502, 503, 504). -/
def retryable (s : ℕ) : Bool := s == 429 || s == 502 || s == 503 || s == 504

/-- requests raise_for_status: raises HTTPError for 4xx and 5xx statuses,
returns the response otherwise. -/
def raiseForStatus (s : ℕ) : GetOutcome :=
  if 400 ≤ s ∧ s < 600 then GetOutcome.httpError s else GetOutcome.ok s

/-- The attempt loop of _get over a stream of response statuses (st n is
the status of attempt n, 0-based).  Returns the sleeps performed, in
seconds, and the outcome.  On a retryable status the client sleeps
1.5 * (attempt + 1) and retries; otherwise raise_for_status decides.  When
the five attempts are exhausted, raise_for_status runs on the last
response. -/
def getGo (st : ℕ → ℕ) : ℕ → ℕ → List ℚ × GetOutcome
  | a, fuel + 1 =>
    if retryable (st a) then
      let rest := getGo st (a + 1) fuel
      ((3/2 : ℚ) * ((a : ℚ) + 1) :: rest.1, rest.2)
    else ([], raiseForStatus (st a))
  | a, 0 => ([], raiseForStatus (st (a - 1)))

/-- GitLab._get: five attempts starting at attempt 0. -/
def GitLab_get (st : ℕ → ℕ) : List ℚ × GetOutcome := getGo st 0 5

/-- The sleep sequence of k consecutive retries. -/
def retrySleeps (k : ℕ) : List ℚ :=
  (List.range k).map (fun i => (3/2 : ℚ) * ((i : ℚ) + 1))

/-- The first attempt index among 0..4 whose status is not retryable. -/
def firstNonRetryable (st : ℕ → ℕ) : Option ℕ :=
  (List.range 5).find? (fun i => !retryable (st i))

/-!  CI health collector (gitlab_ci_health_metrics.py; the ___old file has
the same per-pipeline computations, run concurrently).  -/

/-- A CI job as consumed by the collectors.  status is the raw status
string, with the empty string modelling a missing status (the code applies
or-empty then lower); stage is None when absent. -/
structure CIJob where
  status : String
  stage : Option String
  queued_duration : Option ℚ
  created_at : Option ℤ
  started_at : Option ℤ
  finished_at : Option ℤ
  duration : Option ℚ
deriving DecidableEq, Repr

/-- compute_job_queue_seconds: a numeric queued_duration wins; otherwise
started_at minus created_at when both parse; otherwise None. -/
def compute_job_queue_seconds (j : CIJob) : Option ℚ :=
  match j.queued_duration with
  | some qd => some qd
  | none =>
    match j.created_at, j.started_at with
    | some created, some started => some (to_seconds (started - created))
    | _, _ => none

/-- compute_job_duration_seconds: a numeric duration wins; otherwise
finished_at minus started_at when both parse; otherwise None. -/
def compute_job_duration_seconds (j : CIJob) : Option ℚ :=
  match j.duration with
  | some dur => some dur
  | none =>
    match j.started_at, j.finished_at with
    | some started, some finished => some (to_seconds (finished - started))
    | _, _ => none

/-- One pipeline with its fetched detail and jobs: the stub fields (id,
ref, status, created_at, updated_at) and the full-detail fields
(started_at, finished_at, duration) plus the job list. -/
structure CIPipeline where
  id : ℤ
  ref : String
  status : String
  created_at : Option ℤ
  updated_at : Option ℤ
  started_at : Option ℤ
  finished_at : Option ℤ
  duration : Option ℚ
  jobs : List CIJob
deriving DecidableEq, Repr

/-- The pipeline-level fact row, holding the computed values; the CSV layer
later coerces falsy values to empty cells. -/
structure CIFact where
  project_path : String
  pipeline_id : ℤ
  ref : String
  is_default_branch : ℕ
  status : String
  created_at : ℤ
  started_at : Option ℤ
  finished_at : Option ℤ
  duration_sec : Option ℚ
  queue_mean_sec : Option ℚ
  jobs_total : ℕ
  jobs_success : ℕ
  jobs_failed : ℕ
  jobs_canceled : ℕ
  jobs_skipped : ℕ
deriving DecidableEq, Repr

/-- The accumulators of the CI collect_for_project loop.  stage_durations
is the dict in insertion order. -/
structure CIState where
  facts : List CIFact
  all_durations : List ℚ
  all_queues : List ℚ
  all_statuses : List String
  default_durations : List ℚ
  default_statuses : List String
  stage_durations : List (String × List ℚ)
deriving DecidableEq, Repr

/-- stage_durations.setdefault(stg, []).append(jd). -/
def addStage (sd : List (String × List ℚ)) (stg : String) (v : ℚ) :
    List (String × List ℚ) :=
  if sd.any (fun p => p.1 == stg) then
    sd.map (fun p => if p.1 == stg then (p.1, p.2 ++ [v]) else p)
  else sd ++ [(stg, [v])]

/-- Whether default_branch is truthy and the ref equals it. -/
def onDefaultBranch (default_branch : Option String) (ref : String) : Bool :=
  match default_branch with
  | some db => db ≠ "" && ref == db
  | none => false

/-- One iteration of the pipeline loop of collect_for_project.  An error
input models any fetch failure inside the iteration, caught by the blanket
handler before any state mutation; a pipeline without a usable creation
time, or created before the cutoff, is skipped. -/
def ciStep (ppath : String) (default_branch : Option String) (since : ℤ)
    (st : CIState) (pe : Except Unit CIPipeline) : CIState :=
  match pe with
  | Except.error _ => st
  | Except.ok p =>
    match p.created_at.orElse (fun _ => p.updated_at) with
    | none => st
    | some created_at =>
      if created_at < since then st
      else
        let ref := p.ref
        let status := strToLower p.status
        let dur_sec : Option ℚ :=
          match p.duration with
          | some d => some d
          | none =>
            match p.started_at, p.finished_at with
            | some s, some f => some (to_seconds (f - s))
            | _, _ => none
        let jobs := p.jobs
        let jobs_total := jobs.length
        let jobs_failed := jobs.countP (fun j => strToLower j.status == "failed")
        let jobs_success := jobs.countP (fun j => strToLower j.status == "success")
        let jobs_canceled := jobs.countP (fun j => strToLower j.status == "canceled")
        let jobs_skipped := jobs.countP (fun j => strToLower j.status == "skipped")
        let job_queues := jobs.filterMap compute_job_queue_seconds
        let queue_mean := avg job_queues
        let isDef := onDefaultBranch default_branch ref
        let stage_durations :=
          jobs.foldl
            (fun sd j =>
              let stg := match j.stage with
                | some s => if s = "" then "unknown" else s
                | none => "unknown"
              match compute_job_duration_seconds j with
              | some jd => addStage sd stg jd
              | none => sd)
            st.stage_durations
        let fact : CIFact :=
          { project_path := ppath
            pipeline_id := p.id
            ref := ref
            is_default_branch := if isDef then 1 else 0
            status := status
            created_at := created_at
            started_at := p.started_at
            finished_at := p.finished_at
            duration_sec := dur_sec
            queue_mean_sec := queue_mean
            jobs_total := jobs_total
            jobs_success := jobs_success
            jobs_failed := jobs_failed
            jobs_canceled := jobs_canceled
            jobs_skipped := jobs_skipped }
        { facts := st.facts ++ [fact]
          all_durations := st.all_durations ++
            (match dur_sec with | some d => [d] | none => [])
          all_queues := st.all_queues ++
            (match queue_mean with | some q => [q] | none => [])
          all_statuses := st.all_statuses ++ [status]
          default_durations := st.default_durations ++
            (match dur_sec with
             | some d => if isDef then [d] else []
             | none => [])
          default_statuses := st.default_statuses ++
            (if isDef then [status] else [])
          stage_durations := stage_durations }

/-- rate: fraction of statuses equal to success, rounded to 4 decimals,
None on empty input. -/
def ci_rate (statuses : List String) : Option ℚ :=
  if statuses = [] then none
  else some (round4 ((statuses.countP (fun s => s == "success") : ℚ) / (statuses.length : ℚ)))

/-- Python x or empty-string applied to an optional number when building
the rollup dict: None stays absent and a zero value also becomes the empty
cell, both modelled by None. -/
def orBlank (x : Option ℚ) : Option ℚ :=
  match x with
  | some v => if v = 0 then none else some v
  | none => none

/-- The CI per-project rollup dict. -/
structure CIRollup where
  project_path : String
  pipelines_total : ℕ
  pipelines_success : ℕ
  success_rate : Option ℚ
  duration_mean_sec : Option ℚ
  duration_p50_sec : Option ℚ
  duration_p90_sec : Option ℚ
  queue_mean_sec : Option ℚ
  queue_p50_sec : Option ℚ
  queue_p90_sec : Option ℚ
  default_branch : String
  default_success_rate : Option ℚ
  default_duration_p50_sec : Option ℚ
  default_duration_p90_sec : Option ℚ
deriving DecidableEq, Repr

/-- collect_for_project of gitlab_ci_health_metrics.py over the fetched
pipeline results: the fact list, the rollup, and the stage rows. -/
def ci_collect (ppath : String) (default_branch : Option String)
    (pipelines : List (Except Unit CIPipeline)) (since : ℤ) :
    List CIFact × CIRollup × List (String × ℕ × ℚ) :=
  let stF := pipelines.foldl (ciStep ppath default_branch since)
    ⟨[], [], [], [], [], [], []⟩
  let rollup : CIRollup :=
    { project_path := ppath
      pipelines_total := stF.all_statuses.length
      pipelines_success := stF.all_statuses.countP (fun s => s == "success")
      success_rate := orBlank (ci_rate stF.all_statuses)
      duration_mean_sec := orBlank (avg stF.all_durations)
      duration_p50_sec := orBlank (quantiles stF.all_durations (50/100))
      duration_p90_sec := orBlank (quantiles stF.all_durations (90/100))
      queue_mean_sec := orBlank (avg stF.all_queues)
      queue_p50_sec := orBlank (quantiles stF.all_queues (50/100))
      queue_p90_sec := orBlank (quantiles stF.all_queues (90/100))
      default_branch := (default_branch.getD "")
      default_success_rate := orBlank (ci_rate stF.default_statuses)
      default_duration_p50_sec := orBlank (quantiles stF.default_durations (50/100))
      default_duration_p90_sec := orBlank (quantiles stF.default_durations (90/100)) }
  let stage_rows := stF.stage_durations.foldl
    (fun rows p =>
      if p.2 = [] then rows
      else rows ++ [(p.1, p.2.length, (avg p.2).getD 0)])
    []
  (stF.facts, rollup, stage_rows)

/-!  Portfolio mains of the CI collectors.  -/

/-- The result-folding loop of the ___old concurrent main: each future
result arrives in completion order and is guarded by a handler, so a
failed project is logged and skipped; a project with no facts is skipped;
otherwise its rollup is appended. -/
def old_main_rollups :
    List (Except Unit (List CIFact × CIRollup × List (String × ℕ × ℚ))) → List CIRollup
  | [] => []
  | Except.error _ :: rest => old_main_rollups rest
  | Except.ok res :: rest =>
    if res.1.isEmpty then old_main_rollups rest
    else res.2.1 :: old_main_rollups rest

/-- Row order of the ___old summary CSV (write_summary_csv): rollups sorted
ascending by lowercased project path (Python sorted with a key is a stable
sort). -/
def old_summary_order (rollups : List CIRollup) : List CIRollup :=
  rollups.insertionSort (fun a b => strToLower a.project_path ≤ strToLower b.project_path)

/-- Row order of the sequential CI summary CSV (write_summary_csv of
gitlab_ci_health_metrics.py): list order, unsorted. -/
def ci_summary_order (rollups : List CIRollup) : List CIRollup := rollups

/-!  Concrete inputs used by witnesses and counterexamples, and derived
predicates used in claim statements.  -/

/-- A system note whose lowercased body contains a ready pattern: exactly
the notes that move the ready time in find_ready_time. -/
def isReadySystemNote (n : Note) : Bool :=
  n.system && READY_PATTERNS.any (fun p => strContains (strToLower n.body) p)

/-- Ready at t=1, draft at t=2, ready at t=3: the scenario of the
ready-time testable property. -/
def exC4Notes : List Note :=
  [{ system := true, body := "marked this merge request as ready",
     author := some "rev", created_at := 1 },
   { system := true, body := "marked this merge request as draft",
     author := some "rev", created_at := 2 },
   { system := true, body := "marked this merge request as ready",
     author := some "rev", created_at := 3 }]

/-- Reviewer notes at t=10, 30, 40 from a non-author. -/
def exC5Notes : List Note :=
  [{ system := false, body := "please fix", author := some "rev", created_at := 10 },
   { system := false, body := "still broken", author := some "rev", created_at := 30 },
   { system := false, body := "one more thing", author := some "rev", created_at := 40 }]

/-- Commits at t=20 and t=50, giving the stream review, commit, review,
review, commit. -/
def exC5Commits : List Commit :=
  [{ created_at := 20 }, { created_at := 50 }]

/-- A merged MR with no notes or commits, merged at t=10. -/
def exMRData : MRData :=
  { mr_id := 1, iid := 1, title := "t", author := some "dev", created_at := 0,
    merged_at := some 10, notes := [], commits := [], changes := [] }

/-- A project whose merged-MR list fetch raises. -/
def exBadProj : ProjInput :=
  { pid := 1, ppath := "grp/a", mrs := Except.error () }

/-- A project with one successfully processed merged MR. -/
def exGoodProj : ProjInput :=
  { pid := 2, ppath := "grp/b", mrs := Except.ok [Except.ok exMRData] }

/-- An all-empty DevFlow rollup at a given path, as discovery order would
produce for a project with facts elsewhere; only the path matters to row
ordering. -/
def exRollupAt (p : String) : ProjectRollup :=
  { project_id := 0, project_path := p, mrs_merged := 0,
    mttm_mean_h := none, mttm_p50_h := none, mttm_p90_h := none,
    ttfr_mean_h := none, ttfr_p50_h := none, ttfr_p90_h := none,
    review_rounds_avg := none,
    size_xs := 0, size_s := 0, size_m := 0, size_l := 0, size_xl := 0 }

/-- The status stream whose first response is an HTTP 500 and whose later
responses are HTTP 200. -/
def exSt500 : ℕ → ℕ := fun i => if i = 0 then 500 else 200

/-!  Shared helper lemmas.  -/

lemma pyRound_intCast (k : ℤ) : pyRound (k : ℚ) = k := by
  simp only [pyRound, Int.floor_intCast, sub_self]
  norm_num

lemma pyRound_zero : pyRound 0 = 0 := by
  have h := pyRound_intCast 0
  simpa using h

lemma pyRound_nonneg {x : ℚ} (hx : 0 ≤ x) : 0 ≤ pyRound x := by
  have hf : (0 : ℤ) ≤ ⌊x⌋ := Int.floor_nonneg.mpr hx
  simp only [pyRound]
  split_ifs <;> omega

lemma round3_nonneg {x : ℚ} (hx : 0 ≤ x) : 0 ≤ round3 x := by
  have h := pyRound_nonneg (x := x * 1000) (by positivity)
  unfold round3
  positivity

lemma to_hours_nonneg {d : ℤ} (hd : 0 ≤ d) : 0 ≤ to_hours d := by
  apply round3_nonneg
  positivity

/-!  Claim theorems.  -/

/-- C6: on the empty input list both statistics utilities return the
distinct no-data value None, never zero: quantiles([], q) is None for every
q, and avg([]) is None. -/
theorem claim_C6 (q : ℚ) : quantiles [] q = none ∧ avg [] = none :=
  ⟨rfl, rfl⟩

lemma quantiles_zero_aux (x : ℚ) (xs : List ℚ) :
    ∃ m, m ∈ x :: xs ∧ (∀ y ∈ x :: xs, m ≤ y) ∧ quantiles (x :: xs) 0 = some (round3 m) := by
  have hperm := List.perm_insertionSort (α := ℚ) (· ≤ ·) (x :: xs)
  have hsort := List.sorted_insertionSort (α := ℚ) (· ≤ ·) (x :: xs)
  set L := (x :: xs).insertionSort (· ≤ ·) with hL
  have hlen : L.length = xs.length + 1 := by
    simpa using hperm.length_eq
  have hpos : 0 < L.length := by omega
  refine ⟨L[0], ?_, ?_, ?_⟩
  · exact hperm.subset (List.getElem_mem hpos)
  · intro y hy
    have hyL : y ∈ L := (hperm.mem_iff).mpr hy
    obtain ⟨j, hj, rfl⟩ := List.mem_iff_getElem.mp hyL
    have h := hsort.rel_get_of_le (a := ⟨0, hpos⟩) (b := ⟨j, hj⟩) (by simp)
    simpa using h
  · simp only [quantiles]
    rw [if_neg (by simp)]
    rw [← hL]
    have hidx : (max 0 (min ((L.length : ℤ) - 1) (pyRound (((L.length : ℤ) - 1 : ℚ) * 0)))) = 0 := by
      rw [mul_zero, pyRound_zero]
      omega
    rw [hidx]
    rw [show ((0 : ℤ).toNat) = 0 from rfl]
    rw [List.getD_eq_getElem _ _ hpos]

lemma quantiles_one_aux (x : ℚ) (xs : List ℚ) :
    ∃ M, M ∈ x :: xs ∧ (∀ y ∈ x :: xs, y ≤ M) ∧ quantiles (x :: xs) 1 = some (round3 M) := by
  have hperm := List.perm_insertionSort (α := ℚ) (· ≤ ·) (x :: xs)
  have hsort := List.sorted_insertionSort (α := ℚ) (· ≤ ·) (x :: xs)
  set L := (x :: xs).insertionSort (· ≤ ·) with hL
  have hlen : L.length = xs.length + 1 := by
    simpa using hperm.length_eq
  have hlt : L.length - 1 < L.length := by omega
  refine ⟨L[L.length - 1], ?_, ?_, ?_⟩
  · exact hperm.subset (List.getElem_mem hlt)
  · intro y hy
    have hyL : y ∈ L := (hperm.mem_iff).mpr hy
    obtain ⟨j, hj, rfl⟩ := List.mem_iff_getElem.mp hyL
    have h := hsort.rel_get_of_le (a := ⟨j, hj⟩) (b := ⟨L.length - 1, hlt⟩)
      (by simp [Fin.le_def]; omega)
    simpa using h
  · simp only [quantiles]
    rw [if_neg (by simp)]
    rw [← hL]
    have hcast : (((L.length : ℤ) - 1 : ℚ)) * 1 = (((L.length : ℤ) - 1 : ℤ) : ℚ) := by
      push_cast
      ring
    have hidx : (max 0 (min ((L.length : ℤ) - 1) (pyRound (((L.length : ℤ) - 1 : ℚ) * 1)))) =
        (L.length : ℤ) - 1 := by
      rw [hcast, pyRound_intCast]
      omega
    rw [hidx]
    have htn : ((L.length : ℤ) - 1).toNat = L.length - 1 := by omega
    rw [htn, List.getD_eq_getElem _ _ hlt]

lemma quantiles_single_aux (z q : ℚ) : quantiles [z] q = some (round3 z) := by
  simp only [quantiles]
  rw [if_neg (by simp)]
  have hLz : ([z] : List ℚ).insertionSort (· ≤ ·) = [z] := rfl
  rw [hLz]
  norm_num [pyRound_zero]

/-- C3: for every non-empty list of rationals, quantiles at q = 0 is the
minimum and at q = 1 the maximum, each rounded to 3 decimals, and for a
singleton list any q between 0 and 1 yields that single value rounded to 3
decimals. -/
theorem claim_C3 (x : ℚ) (xs : List ℚ) :
    (∃ m, m ∈ x :: xs ∧ (∀ y ∈ x :: xs, m ≤ y) ∧ quantiles (x :: xs) 0 = some (round3 m)) ∧
    (∃ M, M ∈ x :: xs ∧ (∀ y ∈ x :: xs, y ≤ M) ∧ quantiles (x :: xs) 1 = some (round3 M)) ∧
    (∀ z q : ℚ, 0 ≤ q → q ≤ 1 → quantiles [z] q = some (round3 z)) :=
  ⟨quantiles_zero_aux x xs, quantiles_one_aux x xs,
    fun z q _ _ => quantiles_single_aux z q⟩

/-- C3 witness: the singleton conjunct applied at z = 5, q = 1/2 with both
hypotheses discharged. -/
theorem claim_C3_witness : quantiles [(5 : ℚ)] (1/2) = some (round3 5) :=
  (claim_C3 5 []).2.2 5 (1/2) (by norm_num) (by norm_num)

/-- C10: compute_ttfr returns None or a non-negative number of hours; the
guard comparing the note timestamp with created_at ensures no negative
time-to-first-review. -/
theorem claim_C10 (created_at : ℤ) (mr_author : String) (notes : List Note) :
    compute_ttfr created_at mr_author notes = none ∨
    ∃ h, compute_ttfr created_at mr_author notes = some h ∧ 0 ≤ h := by
  induction notes with
  | nil => exact Or.inl rfl
  | cons n rest ih =>
    by_cases hs : n.system
    · simpa [compute_ttfr, hs] using ih
    · cases ha : n.author with
      | none => simpa [compute_ttfr, hs, ha] using ih
      | some a =>
        by_cases hq : a ≠ "" ∧ a ≠ mr_author
        · by_cases ht : created_at ≤ n.created_at
          · refine Or.inr ⟨to_hours (n.created_at - created_at), ?_,
              to_hours_nonneg (by omega)⟩
            simp [compute_ttfr, hs, ha, hq, ht]
          · simpa [compute_ttfr, hs, ha, hq, ht] using ih
        · simpa [compute_ttfr, hs, ha, hq] using ih

lemma getLast_map_getD_cons (n : Note) (fr : List Note) (acc : ℤ) :
    (((n :: fr).getLast?).map Note.created_at).getD acc =
      ((fr.getLast?).map Note.created_at).getD n.created_at := by
  cases fr with
  | nil => rfl
  | cons m fs =>
    rw [List.getLast?_cons_cons]
    obtain ⟨y, hy⟩ : ∃ y, (m :: fs).getLast? = some y := by
      cases h : (m :: fs).getLast? with
      | none => exact absurd (List.getLast?_eq_none_iff.mp h) (by simp)
      | some y => exact ⟨y, rfl⟩
    simp [hy]

lemma readyStep_of_ready {acc : ℤ} {n : Note} (h : isReadySystemNote n = true) :
    readyStep acc n = n.created_at := by
  simp only [isReadySystemNote, Bool.and_eq_true] at h
  simp [readyStep, h.1, h.2]

lemma readyStep_of_not_ready {acc : ℤ} {n : Note} (h : isReadySystemNote n = false) :
    readyStep acc n = acc := by
  by_cases hs : n.system
  · have ha : READY_PATTERNS.any (fun p => strContains (strToLower n.body) p) = false := by
      simpa [isReadySystemNote, hs] using h
    simp [readyStep, hs, ha]
  · simp [readyStep, hs]

lemma readyFold_eq (notes : List Note) : ∀ acc : ℤ,
    notes.foldl readyStep acc =
      (((notes.filter isReadySystemNote).getLast?).map Note.created_at).getD acc := by
  induction notes with
  | nil => intro acc; rfl
  | cons n rest ih =>
    intro acc
    rw [List.foldl_cons, ih]
    by_cases hr : isReadySystemNote n
    · rw [List.filter_cons_of_pos hr, getLast_map_getD_cons, readyStep_of_ready hr]
    · rw [List.filter_cons_of_neg (by simp [hr]),
        readyStep_of_not_ready (by simp [hr])]

/-- C4: over a chronologically ordered note list, find_ready_time returns
the creation timestamp when no system note matches a ready pattern, and
otherwise the timestamp of the last matching ready system note, draft notes
notwithstanding. -/
theorem claim_C4 (created_at : ℤ) (notes : List Note)
    (_hchron : List.Chain' (fun a b : Note => a.created_at ≤ b.created_at) notes) :
    find_ready_time created_at notes =
      (((notes.filter isReadySystemNote).getLast?).map Note.created_at).getD created_at :=
  readyFold_eq notes created_at

/-- C4 witness: the ready at t1, draft at t2, ready at t3 scenario with
t1 < t2 < t3 resolves to t3. -/
theorem claim_C4_witness :
    find_ready_time 0 exC4Notes =
      (((exC4Notes.filter isReadySystemNote).getLast?).map Note.created_at).getD 0 ∧
    find_ready_time 0 exC4Notes = 3 :=
  ⟨claim_C4 0 exC4Notes (by norm_num [exC4Notes, List.chain'_cons]), by decide⟩

lemma roundsFold_eq (events : List (ℤ × EventKind)) : ∀ (r : ℕ) (b : Bool),
    (events.foldl roundStep (r, b)).1 = r + countRoundsGo b (events.map Prod.snd) := by
  induction events with
  | nil => intro r b; simp [countRoundsGo]
  | cons e rest ih =>
    intro r b
    rw [List.foldl_cons]
    cases hk : e.2 with
    | review =>
      have hstep : roundStep (r, b) e = (r, true) := by simp [roundStep, hk]
      rw [hstep, ih]
      simp [hk, countRoundsGo]
    | commit =>
      cases b with
      | false =>
        have hstep : roundStep (r, false) e = (r, false) := by simp [roundStep, hk]
        rw [hstep, ih]
        simp [hk, countRoundsGo]
      | true =>
        have hstep : roundStep (r, true) e = (r + 1, false) := by simp [roundStep, hk]
        rw [hstep, ih]
        simp [hk, countRoundsGo]
        omega

/-- C5: compute_review_rounds equals the two-state machine (review sets the
awaiting flag idempotently, commit while awaiting counts one round and
clears it, commit otherwise is a no-op) run over the kinds of its merged
time-sorted event stream; in particular the stream review, commit, review,
review, commit yields 2 rounds. -/
theorem claim_C5 :
    (∀ (mr_author : String) (notes : List Note) (commits : List Commit)
      (start_time merged_at : ℤ),
      compute_review_rounds mr_author notes commits start_time merged_at =
        countRounds ((mergedEvents mr_author notes commits start_time merged_at).map
          Prod.snd)) ∧
    compute_review_rounds "dev" exC5Notes exC5Commits 0 100 = 2 := by
  constructor
  · intro a ns cs s m
    unfold compute_review_rounds countRounds
    rw [roundsFold_eq]
    simp
  · decide

lemma ciStep_len (ppath : String) (db : Option String) (since : ℤ)
    (st : CIState) (pe : Except Unit CIPipeline)
    (h : st.facts.length = st.all_statuses.length) :
    (ciStep ppath db since st pe).facts.length =
      (ciStep ppath db since st pe).all_statuses.length := by
  cases pe with
  | error e => simpa [ciStep] using h
  | ok p =>
    simp only [ciStep]
    cases hc : p.created_at.orElse (fun _ => p.updated_at) with
    | none => simpa using h
    | some c =>
      by_cases hlt : c < since
      · simp [hlt, h]
      · simp [hlt, h]

lemma ci_fold_len (ppath : String) (db : Option String) (since : ℤ) :
    ∀ (ps : List (Except Unit CIPipeline)) (st : CIState),
    st.facts.length = st.all_statuses.length →
    ((ps.foldl (ciStep ppath db since) st).facts.length =
      (ps.foldl (ciStep ppath db since) st).all_statuses.length)
  | [], _, h => h
  | pe :: rest, st, h =>
    ci_fold_len ppath db since rest (ciStep ppath db since st pe)
      (ciStep_len ppath db since st pe h)

/-- C7: each rollup count equals the length of the fact list produced with
it: mrs_merged in the DevFlow collector and pipelines_total in the CI
collector both equal the number of fact records. -/
theorem claim_C7 :
    (∀ (pid : ℤ) (ppath : String) (mrs : List (Except Unit MRData)) (since : ℤ),
      (df_collect pid ppath mrs since).2.mrs_merged =
        (df_collect pid ppath mrs since).1.length) ∧
    (∀ (ppath : String) (db : Option String) (ps : List (Except Unit CIPipeline))
      (since : ℤ),
      (ci_collect ppath db ps since).2.1.pipelines_total =
        (ci_collect ppath db ps since).1.length) := by
  constructor
  · intro pid ppath mrs since
    rfl
  · intro ppath db ps since
    have h := ci_fold_len ppath db since ps ⟨[], [], [], [], [], [], []⟩ rfl
    simpa [ci_collect] using h.symm

lemma incBucket_size_bucket (c : SizeCounts) (n : ℤ) :
    ∃ c2, incBucket c (size_bucket (some n)) = some c2 ∧
      c2.xs + c2.s + c2.m + c2.l + c2.xl =
        c.xs + c.s + c.m + c.l + c.xl + 1 := by
  simp only [size_bucket]
  split_ifs
  · exact ⟨{ c with xs := c.xs + 1 }, rfl, by simp; omega⟩
  · exact ⟨{ c with s := c.s + 1 }, rfl, by simp; omega⟩
  · exact ⟨{ c with m := c.m + 1 }, rfl, by simp; omega⟩
  · exact ⟨{ c with l := c.l + 1 }, rfl, by simp; omega⟩
  · exact ⟨{ c with xl := c.xl + 1 }, rfl, by simp; omega⟩

lemma size_bucket_mem (n : ℤ) :
    size_bucket (some n) ∈ (["xs", "s", "m", "l", "xl"] : List String) := by
  simp only [size_bucket]
  split_ifs <;> simp

lemma df_step_inv (pid : ℤ) (ppath : String) (since : ℤ) (st : DFState)
    (me : Except Unit MRData)
    (h1 : ∀ f ∈ st.facts, ∃ k, f.files_changed = some k)
    (h2 : st.size_counts.xs + st.size_counts.s + st.size_counts.m +
      st.size_counts.l + st.size_counts.xl = st.facts.length) :
    (∀ f ∈ (df_step pid ppath since st me).facts, ∃ k, f.files_changed = some k) ∧
    ((df_step pid ppath since st me).size_counts.xs +
      (df_step pid ppath since st me).size_counts.s +
      (df_step pid ppath since st me).size_counts.m +
      (df_step pid ppath since st me).size_counts.l +
      (df_step pid ppath since st me).size_counts.xl =
      (df_step pid ppath since st me).facts.length) := by
  cases me with
  | error e => exact ⟨h1, h2⟩
  | ok d =>
    simp only [df_step]
    cases hm : d.merged_at with
    | none => exact ⟨h1, h2⟩
    | some m =>
      by_cases hlt : m < since
      · simp only [hlt, if_true]
        exact ⟨h1, h2⟩
      · simp only [hlt, if_false]
        obtain ⟨c2, hc2, hsum⟩ :=
          incBucket_size_bucket st.size_counts (d.changes.length : ℤ)
        rw [hc2]
        constructor
        · intro f hf
          rcases List.mem_append.mp hf with hl | hr
          · exact h1 f hl
          · rcases List.mem_singleton.mp hr with rfl
            exact ⟨(d.changes.length : ℤ), rfl⟩
        · simp only [List.length_append, List.length_singleton]
          omega

lemma df_fold_inv (pid : ℤ) (ppath : String) (since : ℤ) :
    ∀ (mrs : List (Except Unit MRData)) (st : DFState),
    (∀ f ∈ st.facts, ∃ k, f.files_changed = some k) →
    (st.size_counts.xs + st.size_counts.s + st.size_counts.m +
      st.size_counts.l + st.size_counts.xl = st.facts.length) →
    (∀ f ∈ (mrs.foldl (df_step pid ppath since) st).facts, ∃ k, f.files_changed = some k) ∧
    ((mrs.foldl (df_step pid ppath since) st).size_counts.xs +
      (mrs.foldl (df_step pid ppath since) st).size_counts.s +
      (mrs.foldl (df_step pid ppath since) st).size_counts.m +
      (mrs.foldl (df_step pid ppath since) st).size_counts.l +
      (mrs.foldl (df_step pid ppath since) st).size_counts.xl =
      (mrs.foldl (df_step pid ppath since) st).facts.length)
  | [], _, h1, h2 => ⟨h1, h2⟩
  | me :: rest, st, h1, h2 =>
    df_fold_inv pid ppath since rest (df_step pid ppath since st me)
      (df_step_inv pid ppath since st me h1 h2).1
      (df_step_inv pid ppath since st me h1 h2).2

/-- C9: every fact the DevFlow collector produces carries a files_changed
count (never None), its size bucket is one of xs, s, m, l, xl (the unknown
branch and the KeyError it would cause are unreachable), and the size
histogram of the rollup sums to mrs_merged. -/
theorem claim_C9 (pid : ℤ) (ppath : String) (mrs : List (Except Unit MRData))
    (since : ℤ) :
    (∀ f ∈ (df_collect pid ppath mrs since).1,
      (∃ k, f.files_changed = some k) ∧
      size_bucket f.files_changed ∈ (["xs", "s", "m", "l", "xl"] : List String)) ∧
    ((df_collect pid ppath mrs since).2.size_xs +
      (df_collect pid ppath mrs since).2.size_s +
      (df_collect pid ppath mrs since).2.size_m +
      (df_collect pid ppath mrs since).2.size_l +
      (df_collect pid ppath mrs since).2.size_xl =
      (df_collect pid ppath mrs since).2.mrs_merged) := by
  obtain ⟨h1, h2⟩ := df_fold_inv pid ppath since mrs ⟨[], [], [], [], ⟨0, 0, 0, 0, 0⟩⟩
    (by intro f hf; simp at hf) (by simp)
  constructor
  · intro f hf
    obtain ⟨k, hk⟩ := h1 f hf
    exact ⟨⟨k, hk⟩, by rw [hk]; exact size_bucket_mem k⟩
  · exact h2

lemma raiseForStatus_of_retryable {s : ℕ} (h : retryable s = true) :
    raiseForStatus s = GetOutcome.httpError s := by
  have hs : s = 429 ∨ s = 502 ∨ s = 503 ∨ s = 504 := by
    simpa [retryable, or_assoc] using h
  rcases hs with rfl | rfl | rfl | rfl <;> rfl

lemma retrySleeps_zero : retrySleeps 0 = [] := rfl

lemma retrySleeps_one : retrySleeps 1 = [3/2] := by
  norm_num [retrySleeps, List.range_succ]

lemma retrySleeps_two : retrySleeps 2 = [3/2, 3] := by
  norm_num [retrySleeps, List.range_succ]

lemma retrySleeps_three : retrySleeps 3 = [3/2, 3, 9/2] := by
  norm_num [retrySleeps, List.range_succ]

lemma retrySleeps_four : retrySleeps 4 = [3/2, 3, 9/2, 6] := by
  norm_num [retrySleeps, List.range_succ]

lemma retrySleeps_five : retrySleeps 5 = [3/2, 3, 9/2, 6, 15/2] := by
  norm_num [retrySleeps, List.range_succ]

/-- C1 (amended): the client retries, sleeping 1.5 seconds times the
attempt number, exactly while the status is 429, 502, 503 or 504, for at
most 5 attempts; at the first other status raise_for_status decides the
outcome (HTTP error for 4xx and 5xx, the response otherwise); when all 5
attempts are retryable the last response yields an HTTP error. -/
theorem claim_C1_amended (st : ℕ → ℕ) :
    GitLab_get st =
      match firstNonRetryable st with
      | some k => (retrySleeps k, raiseForStatus (st k))
      | none => (retrySleeps 5, GetOutcome.httpError (st 4)) := by
  have hr5 : List.range 5 = [0, 1, 2, 3, 4] := rfl
  by_cases h0 : retryable (st 0)
  case neg =>
    simp [GitLab_get, getGo, firstNonRetryable, retrySleeps_zero, hr5, h0]
  case pos =>
  by_cases h1 : retryable (st 1)
  case neg =>
    simp [GitLab_get, getGo, firstNonRetryable, retrySleeps_one, hr5, h0, h1]
    try norm_num
  case pos =>
  by_cases h2 : retryable (st 2)
  case neg =>
    simp [GitLab_get, getGo, firstNonRetryable, retrySleeps_two, hr5, h0, h1, h2]
    try norm_num
  case pos =>
  by_cases h3 : retryable (st 3)
  case neg =>
    simp [GitLab_get, getGo, firstNonRetryable, retrySleeps_three, hr5, h0, h1, h2, h3]
    try norm_num
  case pos =>
  by_cases h4 : retryable (st 4)
  case neg =>
    simp [GitLab_get, getGo, firstNonRetryable, retrySleeps_four, hr5, h0, h1, h2, h3, h4]
    try norm_num
  case pos =>
    simp [GitLab_get, getGo, firstNonRetryable, retrySleeps_five, hr5, h0, h1, h2, h3, h4,
      raiseForStatus_of_retryable h4]
    try norm_num

/-- C1 counterexample: on a first response with status 500 (a 5xx status
outside the retry tuple) the client performs no sleep and raises an HTTP
error immediately, instead of sleeping 1.5 seconds, retrying and returning
the following 200 response as the claim requires. -/
theorem claim_C1_counterexample :
    GitLab_get exSt500 = ([], GetOutcome.httpError 500) ∧
    (([], GetOutcome.httpError 500) : List ℚ × GetOutcome) ≠
      (retrySleeps 1, GetOutcome.ok 200) := by
  constructor
  · rfl
  · rw [retrySleeps_one]
    intro h
    exact absurd (congrArg Prod.fst h) (by simp)

/-- C2 (amended): only the concurrent ___old CI orchestrator isolates a
project failure: the failed project contributes nothing and every other
project is reported unchanged.  In the sequential DevFlow main a project
whose merged-MR list fetch raises aborts the whole run. -/
theorem claim_C2_amended :
    (∀ (pre post : List (Except Unit (List CIFact × CIRollup × List (String × ℕ × ℚ)))),
      old_main_rollups (pre ++ Except.error () :: post) = old_main_rollups (pre ++ post)) ∧
    (∀ (pid : ℤ) (ppath : String) (since : ℤ) (rest : List ProjInput),
      df_main_rollups since
        ({ pid := pid, ppath := ppath, mrs := Except.error () } :: rest) =
        Except.error ()) := by
  constructor
  · intro pre post
    induction pre with
    | nil => rfl
    | cons r rs ih =>
      cases r with
      | error e =>
        simp only [List.cons_append, old_main_rollups]
        exact ih
      | ok res =>
        simp only [List.cons_append, old_main_rollups]
        rw [show rs.append (Except.error () :: post) = rs ++ Except.error () :: post from rfl,
          show rs.append post = rs ++ post from rfl, ih]
  · intro pid ppath since rest
    rfl

/-- C2 counterexample: with a first project whose MR-list fetch raises and
a second project holding one processable merged MR, the DevFlow main
aborts with the exception instead of reporting the second project; the
second conjunct shows that project alone does produce one fact. -/
theorem claim_C2_counterexample :
    df_main_rollups 0 [exBadProj, exGoodProj] = Except.error () ∧
    (df_collect 2 "grp/b" [Except.ok exMRData] 0).1.length = 1 := by
  constructor
  · rfl
  · norm_num [df_collect, df_step, exMRData, incBucket, size_bucket]

instance : IsTotal CIRollup
    (fun a b => strToLower a.project_path ≤ strToLower b.project_path) :=
  ⟨fun _ _ => le_total _ _⟩

instance : IsTrans CIRollup
    (fun a b => strToLower a.project_path ≤ strToLower b.project_path) :=
  ⟨fun _ _ _ hab hbc => le_trans hab hbc⟩

/-- C8 (amended): only the concurrent ___old CI collector sorts the
summary rows, ascending by lowercased project path; the DevFlow and
sequential CI summary writers emit the rollups in list (discovery or
completion) order. -/
theorem claim_C8_amended (rollups : List CIRollup) (drollups : List ProjectRollup) :
    List.Sorted
      (fun a b : CIRollup => strToLower a.project_path ≤ strToLower b.project_path)
      (old_summary_order rollups) ∧
    df_summary_order drollups = drollups ∧
    ci_summary_order rollups = rollups :=
  ⟨List.sorted_insertionSort _ rollups, rfl, rfl⟩

/-- C8 counterexample: the DevFlow summary writes rollups in discovery
order, so discovering path grp/b before grp/a yields rows in that order,
not sorted ascending by project path, and reversing the discovery order
reverses the rows. -/
theorem claim_C8_counterexample :
    (df_summary_order [exRollupAt "grp/b", exRollupAt "grp/a"]).map
      ProjectRollup.project_path = ["grp/b", "grp/a"] ∧
    (df_summary_order [exRollupAt "grp/a", exRollupAt "grp/b"]).map
      ProjectRollup.project_path = ["grp/a", "grp/b"] ∧
    (["grp/b", "grp/a"] : List String) ≠ ["grp/a", "grp/b"] := by
  refine ⟨rfl, rfl, ?_⟩
  decide
